import Mathlib

/-!
Shallow embedding of the notification dispatch subsystem of the
prchecklist repository (package `usecase`, file `lib/usecase/notification.go`,
with the data model from `models.go`).

Go machine integers are modelled as `Int`; Go strings as Lean `String`
(sequences of Unicode code points; Go strings here are valid UTF-8);
Go maps as association lists with `List.lookup` (Go map keys are unique,
and the dispatcher only reads the map); fallible Go code as `Except`.
The launching of a goroutine is reified as a `launchedUnit` value: the
data the goroutine closure captures.  Running the goroutines is a
separate function (`runUnit` / `dispatchRun`), parameterised by an
oracle that decides the outcome of each outbound POST.
-/

namespace Prchecklist

/-- From `models.go`: `PullRequest` (fields used by the dispatcher). -/
structure PullRequest where
  Title : String
  Body : String
  Owner : String
  Repo : String
  Number : Int
  IsPrivate : Bool
deriving Repr, DecidableEq

/-- From `models.go`: `GitHubUser` (the `Token` field is irrelevant here). -/
structure GitHubUser where
  ID : Int
  Login : String
  AvatarURL : String
deriving Repr, DecidableEq

/-- From `models.go`: `ChecklistItem` embeds `*PullRequest` and carries `CheckedBy`. -/
structure ChecklistItem where
  Pull : PullRequest
  CheckedBy : List GitHubUser
deriving Repr, DecidableEq

/-- Promoted field of the embedded `*PullRequest`: `item.Number`. -/
def ChecklistItem.Number (item : ChecklistItem) : Int := item.Pull.Number

/-- Promoted field of the embedded `*PullRequest`: `item.Title`. -/
def ChecklistItem.Title (item : ChecklistItem) : String := item.Pull.Title

/-- From `models.go`: the anonymous channel descriptor `struct{ URL string }`. -/
structure Channel where
  URL : String
deriving Repr, DecidableEq

/-- From `models.go`: the anonymous `Events` struct of `ChecklistConfig.Notification`. -/
structure NotificationEvents where
  OnComplete : List String
  OnCheck : List String
deriving Repr, DecidableEq

/-- From `models.go`: the anonymous `Notification` struct of `ChecklistConfig`.
The Go `map[string]struct{ URL string }` is modelled as an association list
(keys unique in Go; the dispatcher only performs lookups). -/
structure Notification where
  Events : NotificationEvents
  Channels : List (String × Channel)
deriving Repr, DecidableEq

/-- From `models.go`: `ChecklistConfig`. -/
structure ChecklistConfig where
  Stages : List String
  Notification : Notification
deriving Repr, DecidableEq

/-- From `models.go`: `Checklist` embeds `*PullRequest` and has `Items` and an
optional (`nil`-able pointer) `Config`. -/
structure Checklist where
  Pull : PullRequest
  Items : List ChecklistItem
  Config : Option ChecklistConfig
deriving Repr, DecidableEq

/-- Modelled from the spec: the `Checklist` stringer used by the `%s` verb in the
rendered messages (`Checklist.String()` is not under `src/`).  The spec says the
message references "the checklist's display title", so the stringer yields the
checklist's title. -/
def Checklist.display (c : Checklist) : String := c.Pull.Title

/-- Modelled from the spec: `Checklist.Path()` is not under `src/`.  The spec's
example URL for owner `o`, repo `r`, pull number `1` is `http://x/o/r/pull/1`,
so the path is `/<owner>/<repo>/pull/<number>`. -/
def Checklist.path (c : Checklist) : String :=
  "/" ++ c.Pull.Owner ++ "/" ++ c.Pull.Repo ++ "/pull/" ++ toString c.Pull.Number

/-- Modelled from the spec: the URL-builder collaborator (`prchecklist.BuildURL`
is not under `src/`).  The spec treats it as "an injected pure function of
(request context, checklist path)", so the request context is modelled as the
pure function itself. -/
structure RenderCtx where
  buildURL : String → String

/-! ### Go `%q` quoting (`fmt.Sprintf` verb `%q` on a string, i.e. `strconv.Quote`)

The embedding is faithful on the ASCII range; Go printability of code points
above `0x7f` depends on Unicode tables, so the quoting theorems below restrict
item titles to ASCII. -/

/-- Lower-case hexadecimal digit, as used by Go's `strconv` and `encoding/json`. -/
def lowerHexDigit (n : Nat) : Char :=
  if n < 10 then Char.ofNat (48 + n) else Char.ofNat (97 + (n - 10))

/-- Go `strconv.IsPrint`, restricted to the ASCII range (exact there:
ASCII code points `0x20`–`0x7e` are printable). -/
def goIsPrint (c : Char) : Bool := 0x20 ≤ c.toNat && c.toNat ≤ 0x7e

/-- One character of Go's `strconv.Quote`: backslash-escape `"` and `\`,
print printable characters verbatim, use the named escapes for the usual
control characters, `\xHH` for other bytes below `0x20` or `0x7f`, and
`\uXXXX` / `\UXXXXXXXX` for the remaining non-printable code points. -/
def goQuoteCharL (c : Char) : List Char :=
  if c = '"' ∨ c = '\\' then ['\\', c]
  else if goIsPrint c then [c]
  else if c.toNat = 7 then ['\\', 'a']
  else if c.toNat = 8 then ['\\', 'b']
  else if c.toNat = 12 then ['\\', 'f']
  else if c = '\n' then ['\\', 'n']
  else if c = '\r' then ['\\', 'r']
  else if c = '\t' then ['\\', 't']
  else if c.toNat = 11 then ['\\', 'v']
  else if c.toNat < 0x20 ∨ c.toNat = 0x7f then
    ['\\', 'x', lowerHexDigit (c.toNat / 16 % 16), lowerHexDigit (c.toNat % 16)]
  else if c.toNat < 0x10000 then
    ['\\', 'u', lowerHexDigit (c.toNat / 4096 % 16), lowerHexDigit (c.toNat / 256 % 16),
      lowerHexDigit (c.toNat / 16 % 16), lowerHexDigit (c.toNat % 16)]
  else
    ['\\', 'U', lowerHexDigit (c.toNat / 0x10000000 % 16), lowerHexDigit (c.toNat / 0x1000000 % 16),
      lowerHexDigit (c.toNat / 0x100000 % 16), lowerHexDigit (c.toNat / 0x10000 % 16),
      lowerHexDigit (c.toNat / 4096 % 16), lowerHexDigit (c.toNat / 256 % 16),
      lowerHexDigit (c.toNat / 16 % 16), lowerHexDigit (c.toNat % 16)]

/-- Go `strconv.Quote` (the `%q` verb on a string): the escaped characters
between a pair of double quotes. -/
def goQuote (s : String) : String :=
  String.mk ('"' :: (s.data.flatMap goQuoteCharL ++ ['"']))

/-! ### Event model (`notification.go` lines 17–52) -/

/-- `eventTypeInvalid eventType = iota` — Go `type eventType int`, value 0. -/
def eventTypeInvalid : Int := 0

/-- `eventTypeOnCheck`, value 1. -/
def eventTypeOnCheck : Int := 1

/-- `eventTypeOnComplete`, value 2. -/
def eventTypeOnComplete : Int := 2

/-- From `notification.go`: `addCheckEvent` struct. -/
structure addCheckEvent where
  checklist : Checklist
  item : ChecklistItem
  user : GitHubUser

/-- From `notification.go`: `completeEvent` struct. -/
structure completeEvent where
  checklist : Checklist

/-- `addCheckEvent.slackMessageText`:
`fmt.Sprintf("[<%s|%s>] #%d %q checked by %s", u, e.checklist, e.item.Number, e.item.Title, e.user.Login)`
with `u = prchecklist.BuildURL(ctx, e.checklist.Path()).String()`. -/
def addCheckEvent.slackMessageText (ctx : RenderCtx) (e : addCheckEvent) : String :=
  let u := ctx.buildURL e.checklist.path
  "[<" ++ u ++ "|" ++ e.checklist.display ++ ">] #" ++ toString e.item.Number ++ " "
    ++ goQuote e.item.Title ++ " checked by " ++ e.user.Login

/-- `completeEvent.slackMessageText`:
`fmt.Sprintf("[<%s|%s>] Checklist completed! :tada:", u, e.checklist)`. -/
def completeEvent.slackMessageText (ctx : RenderCtx) (e : completeEvent) : String :=
  let u := ctx.buildURL e.checklist.path
  "[<" ++ u ++ "|" ++ e.checklist.display ++ ">] Checklist completed! :tada:"

/-- The Go interface `notificationEvent`, as a record of its two methods.
Rendering is pure, so a method closure is its (context-indexed) value. -/
structure notificationEvent where
  slackMessageText : RenderCtx → String
  eventType : Int

/-- `addCheckEvent` seen through the `notificationEvent` interface
(`eventType() eventType { return eventTypeOnCheck }`). -/
def addCheckEvent.iface (e : addCheckEvent) : notificationEvent :=
  { slackMessageText := fun ctx => addCheckEvent.slackMessageText ctx e
    eventType := eventTypeOnCheck }

/-- `completeEvent` seen through the `notificationEvent` interface
(`eventType() eventType { return eventTypeOnComplete }`). -/
def completeEvent.iface (e : completeEvent) : notificationEvent :=
  { slackMessageText := fun ctx => completeEvent.slackMessageText ctx e
    eventType := eventTypeOnComplete }

/-- The closed set of events the event model constructs (`addCheckEvent` and
`completeEvent` are the only implementations of the interface in the package). -/
inductive ModelEvent where
  | addCheck (e : addCheckEvent)
  | complete (e : completeEvent)

/-- A model event seen through the interface. -/
def ModelEvent.iface : ModelEvent → notificationEvent
  | .addCheck e => e.iface
  | .complete e => e.iface

/-! ### `encoding/json` marshalling of the payload (`notification.go` lines 78–84, 99–101)

Go's `json.Marshal` encodes a string with `"`, `\`, `\n`, `\r`, `\t` escaped,
other control characters as `\u00XX`, the HTML-sensitive characters `<`, `>`,
`&` as `\u003c`, `\u003e`, `\u0026` (HTML escaping is on by default), the
line/paragraph separators U+2028/U+2029 as `\u2028`/`\u2029`, and everything
else verbatim. -/

/-- One character of Go's JSON string encoder (HTML escaping on). -/
def jsonQuoteCharL (c : Char) : List Char :=
  if c.toNat < 0x80 then
    if 0x20 ≤ c.toNat ∧ c ≠ '"' ∧ c ≠ '\\' ∧ c ≠ '<' ∧ c ≠ '>' ∧ c ≠ '&' then [c]
    else if c = '\\' then ['\\', '\\']
    else if c = '"' then ['\\', '"']
    else if c = '\n' then ['\\', 'n']
    else if c = '\r' then ['\\', 'r']
    else if c = '\t' then ['\\', 't']
    else ['\\', 'u', '0', '0', lowerHexDigit (c.toNat / 16 % 16), lowerHexDigit (c.toNat % 16)]
  else if c.toNat = 0x2028 then ['\\', 'u', '2', '0', '2', '8']
  else if c.toNat = 0x2029 then ['\\', 'u', '2', '0', '2', '9']
  else [c]

/-- Go's JSON encoding of a string value. -/
def jsonQuote (s : String) : String :=
  String.mk ('"' :: (s.data.flatMap jsonQuoteCharL ++ ['"']))

/-- The fragment of Go's value universe `json.Marshal` is applied to here:
a scalar is either a string (always encodable) or a value of one of the types
the encoder rejects (`chan`, `func`, `complex`, ...), which is the real error
path of `json.Marshal`. -/
inductive GoJSONScalar where
  | str (s : String)
  | unsupported (typeName : String)

/-- `json.Marshal` on a scalar: strings always encode; unsupported types
produce `json: unsupported type: ...`. -/
def marshalScalar : GoJSONScalar → Except String String
  | .str s => .ok (jsonQuote s)
  | .unsupported t => .error ("json: unsupported type: " ++ t)

/-- A value marshalled at the top level: a scalar or a struct (object) whose
fields hold scalars — enough to cover `slackMessagePayload`. -/
inductive GoJSONValue where
  | scalar (v : GoJSONScalar)
  | obj (fields : List (String × GoJSONScalar))

/-- Encoded `"key":value` parts of an object, failing if any field fails. -/
def marshalFields : List (String × GoJSONScalar) → Except String (List String)
  | [] => .ok []
  | (k, v) :: rest => do
      let s ← marshalScalar v
      let tail ← marshalFields rest
      .ok ((jsonQuote k ++ ":" ++ s) :: tail)

/-- `json.Marshal` on the modelled universe. -/
def goJSONMarshal : GoJSONValue → Except String String
  | .scalar v => marshalScalar v
  | .obj fields => do
      let parts ← marshalFields fields
      .ok ("\x7b" ++ String.intercalate "," parts ++ "\x7d")

/-- From `notification.go`: `type slackMessagePayload struct { Text string }`
with tag `json:"text"`. -/
structure slackMessagePayload where
  Text : String

/-- The reflection view of `slackMessagePayload` that `json.Marshal` sees:
an object with the single field `text` holding a string. -/
def slackMessagePayload.goValue (p : slackMessagePayload) : GoJSONValue :=
  .obj [("text", .str p.Text)]

/-- `json.Marshal(&slackMessagePayload{Text: ...})`. -/
def jsonMarshalPayload (p : slackMessagePayload) : Except String String :=
  goJSONMarshal p.goValue

/-! ### The dispatcher (`notifyEvent`, `notification.go` lines 54–97) -/

/-- The data a spawned delivery goroutine captures: the resolved channel and
the event's rendered message (`event.slackMessageText(ctx)` is evaluated
inside the goroutine, but rendering is pure, so the closure is determined by
this value). -/
structure launchedUnit where
  ch : Channel
  messageText : String
deriving Repr, DecidableEq

/-- The loop body of `notifyEvent` over `chNames`: look each name up in the
channel map, skip (`continue`) the names that are absent, and launch one
goroutine per resolved channel. -/
def launchUnits (channels : List (String × Channel)) (chNames : List String)
    (msg : String) : List launchedUnit :=
  chNames.filterMap fun name =>
    (channels.lookup name).map fun ch => { ch := ch, messageText := msg }

/-- `Usecase.notifyEvent`: returns `nil` immediately when `checklist.Config`
is `nil`; otherwise switches on `event.eventType()` to pick the configured
channel-name list (`default` returns the unknown-event-type error), then
launches one goroutine per resolvable name and returns `nil`.  The returned
list reifies the launched goroutines. -/
def notifyEvent (ctx : RenderCtx) (checklist : Checklist) (event : notificationEvent) :
    Except String (List launchedUnit) :=
  match checklist.Config with
  | none => .ok []
  | some config =>
    if event.eventType = eventTypeOnCheck then
      .ok (launchUnits config.Notification.Channels config.Notification.Events.OnCheck
        (event.slackMessageText ctx))
    else if event.eventType = eventTypeOnComplete then
      .ok (launchUnits config.Notification.Channels config.Notification.Events.OnComplete
        (event.slackMessageText ctx))
    else
      .error ("unknown event type: " ++ toString event.eventType)

/-- An outbound HTTP POST, as performed by `http.PostForm(ch.URL, v)` with
`v = url.Values{"payload": {string(payload)}}` (a `url.Values` is a
`map[string][]string`; `http.PostForm` sets the form content type). -/
structure PostRequest where
  url : String
  contentType : String
  form : List (String × List String)
deriving Repr, DecidableEq

/-- The content type `http.PostForm` sends. -/
def formContentType : String := "application/x-www-form-urlencoded"

/-- The POST a launched goroutine performs: marshal the payload (logging and
returning on error — `none`), then POST the single `payload` form field to the
channel's URL. -/
def unitPost (u : launchedUnit) : Option PostRequest :=
  match jsonMarshalPayload { Text := u.messageText } with
  | .error _ => none
  | .ok payload =>
      some { url := u.ch.URL, contentType := formContentType, form := [("payload", [payload])] }

/-- The terminal state of one delivery goroutine: the POST succeeded, or the
marshal failed (logged, goroutine returns), or the POST failed with a
transport error or non-2xx status (`httputil.Succeeding`; logged, goroutine
returns).  No state is propagated anywhere. -/
inductive DeliveryResult where
  | delivered
  | marshalFailedLogged
  | postFailedLogged
deriving Repr, DecidableEq

/-- Run one delivery goroutine against an oracle deciding whether a given
POST succeeds (2xx) or fails (transport error or non-2xx status). -/
def runUnit (post : PostRequest → Bool) (u : launchedUnit) : DeliveryResult :=
  match unitPost u with
  | none => .marshalFailedLogged
  | some req => if post req then .delivered else .postFailedLogged

/-- The whole dispatch: the first component is the caller-visible result of
`notifyEvent` (available as soon as the goroutines are launched); the second
is the eventual outcome of each launched goroutine under the POST oracle. -/
def dispatchRun (post : PostRequest → Bool) (ctx : RenderCtx) (checklist : Checklist)
    (event : notificationEvent) : Except String Unit × List DeliveryResult :=
  match notifyEvent ctx checklist event with
  | .error e => (.error e, [])
  | .ok us => (.ok (), us.map (runUnit post))

/-! ### Concrete sample data (the inputs named by the spec's testable properties) -/

/-- The spec's sample checklist: title `T`, owner `o`, repo `r`, pull number 1. -/
def samplePull : PullRequest :=
  { Title := "T", Body := "", Owner := "o", Repo := "r", Number := 1, IsPrivate := false }

/-- The spec's sample item: number 5, title `Fix bug`. -/
def sampleItem : ChecklistItem :=
  { Pull := { Title := "Fix bug", Body := "", Owner := "o", Repo := "r", Number := 5,
              IsPrivate := false }
    CheckedBy := [] }

/-- The spec's sample user: login `alice`. -/
def sampleUser : GitHubUser := { ID := 1, Login := "alice", AvatarURL := "" }

/-- A checklist with no notification configuration (`Config == nil`). -/
def sampleChecklist : Checklist := { Pull := samplePull, Items := [], Config := none }

/-- A URL builder yielding the spec's canonical URL `http://x/o/r/pull/1`. -/
def sampleCtx : RenderCtx := { buildURL := fun p => "http://x" ++ p }

/-- The spec's sample `CheckAdded` event. -/
def sampleAddEvent : addCheckEvent :=
  { checklist := sampleChecklist, item := sampleItem, user := sampleUser }

/-- The spec's sample `ChecklistCompleted` event. -/
def sampleCompleteEvent : completeEvent := { checklist := sampleChecklist }

/-- A sample webhook channel. -/
def sampleChannel : Channel := { URL := "http://hooks.example/general" }

/-- A configuration mapping both event kinds to the single channel `general`. -/
def sampleConfig : ChecklistConfig :=
  { Stages := []
    Notification :=
      { Events := { OnComplete := ["general"], OnCheck := ["general"] }
        Channels := [("general", sampleChannel)] } }

/-- The sample checklist with `sampleConfig` attached. -/
def sampleConfiguredChecklist : Checklist :=
  { Pull := samplePull, Items := [], Config := some sampleConfig }

/-- A `CheckAdded` event whose item title contains double quotes (for the
`%q` escaping property). -/
def sampleQuotedEvent : addCheckEvent :=
  { checklist := sampleChecklist
    item := { Pull := { Title := "Fix \"all\" bugs", Body := "", Owner := "o", Repo := "r",
                        Number := 5, IsPrivate := false }
              CheckedBy := [] }
    user := sampleUser }

/-- The single delivery goroutine launched when dispatching the sample
`CheckAdded` event against `sampleConfiguredChecklist`. -/
def sampleLaunch : launchedUnit :=
  { ch := sampleChannel
    messageText := addCheckEvent.slackMessageText sampleCtx sampleAddEvent }

/-- A character the `%q` verb reproduces verbatim: printable and neither a
double quote nor a backslash. -/
def goQuotePlain (c : Char) : Prop := goIsPrint c = true ∧ c ≠ '"' ∧ c ≠ '\\'

/-! ### Lemmas about Go quoting -/

theorem goQuoteCharL_spec (c : Char) :
    (goQuotePlain c ∧ goQuoteCharL c = [c])
    ∨ (¬ goQuotePlain c ∧ 2 ≤ (goQuoteCharL c).length ∧ (goQuoteCharL c).take 1 = ['\\']) := by
  unfold goQuoteCharL
  by_cases h1 : c = '"' ∨ c = '\\'
  · right
    rw [if_pos h1]
    refine ⟨?_, by simp, by simp⟩
    rcases h1 with h | h <;> simp [goQuotePlain, h]
  · rw [if_neg h1]
    by_cases h2 : goIsPrint c = true
    · left
      rw [if_pos h2]
      push_neg at h1
      exact ⟨⟨h2, h1.1, h1.2⟩, rfl⟩
    · right
      rw [if_neg h2]
      refine ⟨fun hp => h2 hp.1, ?_⟩
      by_cases h3 : c.toNat = 7
      · rw [if_pos h3]; exact ⟨by simp, by simp⟩
      rw [if_neg h3]
      by_cases h4 : c.toNat = 8
      · rw [if_pos h4]; exact ⟨by simp, by simp⟩
      rw [if_neg h4]
      by_cases h5 : c.toNat = 12
      · rw [if_pos h5]; exact ⟨by simp, by simp⟩
      rw [if_neg h5]
      by_cases h6 : c = '\n'
      · rw [if_pos h6]; exact ⟨by simp, by simp⟩
      rw [if_neg h6]
      by_cases h7 : c = '\r'
      · rw [if_pos h7]; exact ⟨by simp, by simp⟩
      rw [if_neg h7]
      by_cases h8 : c = '\t'
      · rw [if_pos h8]; exact ⟨by simp, by simp⟩
      rw [if_neg h8]
      by_cases h9 : c.toNat = 11
      · rw [if_pos h9]; exact ⟨by simp, by simp⟩
      rw [if_neg h9]
      by_cases h10 : c.toNat < 0x20 ∨ c.toNat = 0x7f
      · rw [if_pos h10]; exact ⟨by simp, by simp⟩
      rw [if_neg h10]
      by_cases h11 : c.toNat < 0x10000
      · rw [if_pos h11]; exact ⟨by simp, by simp⟩
      · rw [if_neg h11]; exact ⟨by simp, by simp⟩

theorem one_le_length_goQuoteCharL (c : Char) : 1 ≤ (goQuoteCharL c).length := by
  rcases goQuoteCharL_spec c with ⟨_, h⟩ | ⟨_, h, _⟩
  · simp [h]
  · omega

theorem goQuoteCharL_singleton (c d : Char) (h : goQuoteCharL c = [d]) :
    goQuotePlain c ∧ c = d := by
  rcases goQuoteCharL_spec c with ⟨hp, he⟩ | ⟨_, hl, _⟩
  · rw [he] at h
    exact ⟨hp, (List.cons.inj h).1⟩
  · rw [h] at hl
    simp at hl

theorem le_length_flatMap_goQuoteCharL (l : List Char) :
    l.length ≤ (l.flatMap goQuoteCharL).length := by
  induction l with
  | nil => simp
  | cons c rest ih =>
      have h1 := one_le_length_goQuoteCharL c
      simp only [List.flatMap_cons, List.length_append, List.length_cons]
      omega

theorem flatMap_goQuoteCharL_eq_self (l : List Char) (h : l.flatMap goQuoteCharL = l) :
    ∀ c ∈ l, goQuotePlain c := by
  induction l with
  | nil => simp
  | cons c rest ih =>
      rw [List.flatMap_cons] at h
      have hlen : (goQuoteCharL c).length + (rest.flatMap goQuoteCharL).length
          = rest.length + 1 := by
        have h0 := congrArg List.length h
        simpa [List.length_append] using h0
      have h1 : (goQuoteCharL c).length = 1 := by
        have h2 := le_length_flatMap_goQuoteCharL rest
        have h3 := one_le_length_goQuoteCharL c
        omega
      obtain ⟨d, hd⟩ : ∃ d, goQuoteCharL c = [d] := by
        cases hq : goQuoteCharL c with
        | nil => rw [hq] at h1; simp at h1
        | cons x xs =>
            cases xs with
            | nil => exact ⟨x, rfl⟩
            | cons y ys => rw [hq] at h1; simp at h1
      obtain ⟨hplain, hcd⟩ := goQuoteCharL_singleton c d hd
      rw [hd] at h
      have htail : rest.flatMap goQuoteCharL = rest := by
        have h4 : d :: rest.flatMap goQuoteCharL = c :: rest := by simpa using h
        exact (List.cons.inj h4).2
      intro a ha
      rcases List.mem_cons.mp ha with rfl | hmem
      · exact hplain
      · exact ih htail a hmem

theorem flatMap_goQuoteCharL_of_plain (l : List Char) (h : ∀ c ∈ l, goQuotePlain c) :
    l.flatMap goQuoteCharL = l := by
  induction l with
  | nil => simp
  | cons c rest ih =>
      rw [List.flatMap_cons]
      rcases goQuoteCharL_spec c with ⟨_, he⟩ | ⟨hnp, _, _⟩
      · rw [he, ih fun a ha => h a (List.mem_cons_of_mem c ha)]
        rfl
      · exact absurd (h c (List.mem_cons_self c rest)) hnp

theorem goQuote_eq_plain_iff (s : String) :
    goQuote s = "\"" ++ s ++ "\"" ↔ ∀ c ∈ s.data, goQuotePlain c := by
  rw [String.ext_iff]
  have hR : ("\"" ++ s ++ "\"").data = '"' :: (s.data ++ ['"']) := by
    rw [String.data_append, String.data_append]
    rfl
  have hL : (goQuote s).data = '"' :: (s.data.flatMap goQuoteCharL ++ ['"']) := rfl
  rw [hL, hR]
  constructor
  · intro h
    have h2 : s.data.flatMap goQuoteCharL ++ ['"'] = s.data ++ ['"'] := (List.cons.inj h).2
    exact flatMap_goQuoteCharL_eq_self _ (List.append_cancel_right h2)
  · intro h
    rw [flatMap_goQuoteCharL_of_plain _ h]

/-! ### Lemmas about the dispatcher -/

theorem launchUnits_length (channels : List (String × Channel)) (names : List String)
    (msg : String) :
    (launchUnits channels names msg).length
      = names.countP fun n => (channels.lookup n).isSome := by
  induction names with
  | nil => rfl
  | cons n rest ih =>
      unfold launchUnits at ih ⊢
      rw [List.filterMap_cons, List.countP_cons]
      cases h : channels.lookup n <;> simp [h, ih]

theorem launchUnits_append (channels : List (String × Channel)) (l1 l2 : List String)
    (msg : String) :
    launchUnits channels (l1 ++ l2) msg
      = launchUnits channels l1 msg ++ launchUnits channels l2 msg := by
  unfold launchUnits
  rw [List.filterMap_append]

theorem mem_launchUnits (channels : List (String × Channel)) (names : List String)
    (msg : String) (u : launchedUnit) (h : u ∈ launchUnits channels names msg) :
    u.messageText = msg ∧ ∃ name, channels.lookup name = some u.ch := by
  induction names with
  | nil => simp [launchUnits] at h
  | cons n rest ih =>
      unfold launchUnits at h
      rw [List.filterMap_cons] at h
      cases hn : channels.lookup n with
      | none =>
          rw [hn] at h
          exact ih h
      | some ch =>
          rw [hn] at h
          rcases List.mem_cons.mp h with rfl | hmem
          · exact ⟨rfl, n, by rw [hn]⟩
          · exact ih hmem

theorem notifyEvent_onCheck (ctx : RenderCtx) (pull : PullRequest)
    (items : List ChecklistItem) (cfg : ChecklistConfig) (ev : notificationEvent)
    (h : ev.eventType = eventTypeOnCheck) :
    notifyEvent ctx ⟨pull, items, some cfg⟩ ev
      = .ok (launchUnits cfg.Notification.Channels cfg.Notification.Events.OnCheck
          (ev.slackMessageText ctx)) := by
  unfold notifyEvent
  simp [h]

theorem notifyEvent_onComplete (ctx : RenderCtx) (pull : PullRequest)
    (items : List ChecklistItem) (cfg : ChecklistConfig) (ev : notificationEvent)
    (h : ev.eventType = eventTypeOnComplete) :
    notifyEvent ctx ⟨pull, items, some cfg⟩ ev
      = .ok (launchUnits cfg.Notification.Channels cfg.Notification.Events.OnComplete
          (ev.slackMessageText ctx)) := by
  unfold notifyEvent
  simp [h, eventTypeOnCheck, eventTypeOnComplete]

theorem notifyEvent_unknown (ctx : RenderCtx) (pull : PullRequest)
    (items : List ChecklistItem) (cfg : ChecklistConfig) (ev : notificationEvent)
    (h1 : ev.eventType ≠ eventTypeOnCheck) (h2 : ev.eventType ≠ eventTypeOnComplete) :
    notifyEvent ctx ⟨pull, items, some cfg⟩ ev
      = .error ("unknown event type: " ++ toString ev.eventType) := by
  unfold notifyEvent
  simp [h1, h2]

theorem notifyEvent_modelEvent_ok (ctx : RenderCtx) (cl : Checklist) (me : ModelEvent) :
    ∃ us, notifyEvent ctx cl me.iface = Except.ok us := by
  rcases cl with ⟨pull, items, cfgOpt⟩
  cases cfgOpt with
  | none => exact ⟨[], rfl⟩
  | some cfg =>
      cases me with
      | addCheck e =>
          exact ⟨_, notifyEvent_onCheck ctx pull items cfg e.iface rfl⟩
      | complete e =>
          exact ⟨_, notifyEvent_onComplete ctx pull items cfg e.iface rfl⟩

/-! ### The claims -/

/-- Claim C1: for every checklist whose `Config` is absent (`nil`) and every
notification event, `notifyEvent` returns success immediately and launches no
delivery goroutine (zero outbound webhook calls). -/
theorem c1_absent_config_no_dispatch (ctx : RenderCtx) (cl : Checklist)
    (ev : notificationEvent) (h : cl.Config = none) :
    notifyEvent ctx cl ev = Except.ok [] := by
  rcases cl with ⟨pull, items, cfgOpt⟩
  cases cfgOpt with
  | none => rfl
  | some cfg => simp at h

/-- Witness for C1 at the sample checklist with `Config == nil`. -/
theorem c1_witness :
    sampleChecklist.Config = none
    ∧ notifyEvent sampleCtx sampleChecklist sampleAddEvent.iface = Except.ok [] :=
  ⟨rfl, c1_absent_config_no_dispatch sampleCtx sampleChecklist sampleAddEvent.iface rfl⟩

/-- Claim C2: `notifyEvent` returns an error iff the checklist has a `Config`
and the event's kind is neither `on_check` nor `on_complete`; for every event
constructed by the event model the call returns success. -/
theorem c2_error_iff_unknown_kind (ctx : RenderCtx) (cl : Checklist)
    (ev : notificationEvent) :
    ((∃ msg, notifyEvent ctx cl ev = Except.error msg)
        ↔ cl.Config.isSome = true ∧ ev.eventType ≠ eventTypeOnCheck
          ∧ ev.eventType ≠ eventTypeOnComplete)
    ∧ ∀ me : ModelEvent, ∃ us, notifyEvent ctx cl me.iface = Except.ok us := by
  refine ⟨?_, notifyEvent_modelEvent_ok ctx cl⟩
  rcases cl with ⟨pull, items, cfgOpt⟩
  cases cfgOpt with
  | none => simp [notifyEvent]
  | some cfg =>
      by_cases h1 : ev.eventType = eventTypeOnCheck
      · rw [notifyEvent_onCheck ctx pull items cfg ev h1]
        simp [h1]
      · by_cases h2 : ev.eventType = eventTypeOnComplete
        · rw [notifyEvent_onComplete ctx pull items cfg ev h2]
          simp [h2]
        · rw [notifyEvent_unknown ctx pull items cfg ev h1 h2]
          simp [h1, h2]

/-- Claim C3: a configured channel name that is not a key of the channel map is
skipped silently — it contributes no launched delivery (erasing it from the
list leaves the fan-out unchanged) — and dispatch still returns success for
every model event. -/
theorem c3_missing_channel_skipped (channels : List (String × Channel))
    (pre post : List String) (name : String) (msg : String)
    (h : channels.lookup name = none) :
    launchUnits channels (pre ++ name :: post) msg = launchUnits channels (pre ++ post) msg
    ∧ ∀ (ctx : RenderCtx) (cl : Checklist) (me : ModelEvent),
        ∃ us, notifyEvent ctx cl me.iface = Except.ok us := by
  refine ⟨?_, fun ctx cl me => notifyEvent_modelEvent_ok ctx cl me⟩
  rw [launchUnits_append, launchUnits_append]
  congr 1
  unfold launchUnits
  rw [List.filterMap_cons]
  simp [h]

/-- Witness for C3: the name `missing` resolves to nothing and is skipped. -/
theorem c3_witness :
    [("general", sampleChannel)].lookup "missing" = (none : Option Channel)
    ∧ (launchUnits [("general", sampleChannel)] (["general"] ++ "missing" :: []) "m"
          = launchUnits [("general", sampleChannel)] (["general"] ++ []) "m"
        ∧ ∀ (ctx : RenderCtx) (cl : Checklist) (me : ModelEvent),
            ∃ us, notifyEvent ctx cl me.iface = Except.ok us) :=
  ⟨by decide,
    c3_missing_channel_skipped [("general", sampleChannel)] ["general"] [] "missing" "m"
      (by decide)⟩

/-- Claim C4: the `CheckAdded` event with checklist title `T`, URL
`http://x/o/r/pull/1`, item number 5, item title `Fix bug` and user login
`alice` renders exactly the claimed message. -/
theorem c4_check_added_rendering :
    addCheckEvent.slackMessageText sampleCtx sampleAddEvent
      = "[<http://x/o/r/pull/1|T>] #5 \"Fix bug\" checked by alice" := by
  decide

/-- Claim C5, counterexample: the `ChecklistCompleted` message does NOT end in
the Unicode emoji 🎉 — the code renders the literal Slack shortcode `:tada:`. -/
theorem c5_counterexample :
    completeEvent.slackMessageText sampleCtx sampleCompleteEvent
      ≠ "[<http://x/o/r/pull/1|T>] Checklist completed! 🎉" := by
  decide

/-- Claim C5, amended: the `ChecklistCompleted` event with checklist title `T`
and URL `http://x/o/r/pull/1` renders exactly
`[<http://x/o/r/pull/1|T>] Checklist completed! :tada:`, the fixed celebratory
marker being the Slack emoji shortcode `:tada:`. -/
theorem c5_amended_rendering :
    completeEvent.slackMessageText sampleCtx sampleCompleteEvent
      = "[<http://x/o/r/pull/1|T>] Checklist completed! :tada:" := by
  decide

/-- Claim C6: every launched delivery performs a POST to the resolved
channel's URL with a form-encoded body whose single field `payload` carries
the JSON object with the single field `text` holding the rendered message. -/
theorem c6_delivery_post_shape (ctx : RenderCtx) (cl : Checklist)
    (ev : notificationEvent) (us : List launchedUnit)
    (h : notifyEvent ctx cl ev = Except.ok us) (u : launchedUnit) (hu : u ∈ us) :
    unitPost u = some
      { url := u.ch.URL
        contentType := "application/x-www-form-urlencoded"
        form := [("payload", ["\x7b\"text\":" ++ jsonQuote u.messageText ++ "\x7d"])] }
    ∧ u.messageText = ev.slackMessageText ctx
    ∧ ∃ cfg name, cl.Config = some cfg
        ∧ cfg.Notification.Channels.lookup name = some u.ch := by
  refine ⟨rfl, ?_⟩
  rcases cl with ⟨pull, items, cfgOpt⟩
  cases cfgOpt with
  | none =>
      have h0 : ([] : List launchedUnit) = us := by simpa [notifyEvent] using h
      rw [← h0] at hu
      simp at hu
  | some cfg =>
      by_cases h1 : ev.eventType = eventTypeOnCheck
      · rw [notifyEvent_onCheck ctx pull items cfg ev h1] at h
        injection h with h2
        rw [← h2] at hu
        obtain ⟨hm, name, hn⟩ := mem_launchUnits _ _ _ u hu
        exact ⟨hm, cfg, name, rfl, hn⟩
      · by_cases h2 : ev.eventType = eventTypeOnComplete
        · rw [notifyEvent_onComplete ctx pull items cfg ev h2] at h
          injection h with h3
          rw [← h3] at hu
          obtain ⟨hm, name, hn⟩ := mem_launchUnits _ _ _ u hu
          exact ⟨hm, cfg, name, rfl, hn⟩
        · rw [notifyEvent_unknown ctx pull items cfg ev h1 h2] at h
          exact absurd h (by simp)

/-- Witness for C6: dispatching the sample `CheckAdded` event against the
configured sample checklist launches exactly `sampleLaunch`, whose POST has
the claimed shape. -/
theorem c6_witness :
    notifyEvent sampleCtx sampleConfiguredChecklist sampleAddEvent.iface
      = Except.ok [sampleLaunch]
    ∧ sampleLaunch ∈ [sampleLaunch]
    ∧ (unitPost sampleLaunch = some
        { url := sampleLaunch.ch.URL
          contentType := "application/x-www-form-urlencoded"
          form := [("payload",
            ["\x7b\"text\":" ++ jsonQuote sampleLaunch.messageText ++ "\x7d"])] }
      ∧ sampleLaunch.messageText = sampleAddEvent.iface.slackMessageText sampleCtx
      ∧ ∃ cfg name, sampleConfiguredChecklist.Config = some cfg
          ∧ cfg.Notification.Channels.lookup name = some sampleLaunch.ch) :=
  ⟨rfl, List.mem_singleton.mpr rfl,
    c6_delivery_post_shape sampleCtx sampleConfiguredChecklist sampleAddEvent.iface
      [sampleLaunch] rfl sampleLaunch (List.mem_singleton.mpr rfl)⟩

/-- Claim C7: the number of launched deliveries equals the number of entries
(counted with multiplicity) of the configured list that resolve in the channel
map; in particular a name configured twice gets two independent deliveries. -/
theorem c7_fanout_multiplicity (ctx : RenderCtx) (pull : PullRequest)
    (items : List ChecklistItem) (cfg : ChecklistConfig) (render : RenderCtx → String) :
    (notifyEvent ctx ⟨pull, items, some cfg⟩ ⟨render, eventTypeOnCheck⟩
        = Except.ok (launchUnits cfg.Notification.Channels
            cfg.Notification.Events.OnCheck (render ctx)))
    ∧ (notifyEvent ctx ⟨pull, items, some cfg⟩ ⟨render, eventTypeOnComplete⟩
        = Except.ok (launchUnits cfg.Notification.Channels
            cfg.Notification.Events.OnComplete (render ctx)))
    ∧ (∀ (channels : List (String × Channel)) (names : List String) (msg : String),
        (launchUnits channels names msg).length
          = names.countP fun n => (channels.lookup n).isSome)
    ∧ (∀ (name : String) (ch : Channel) (msg : String),
        launchUnits [(name, ch)] [name, name] msg = [⟨ch, msg⟩, ⟨ch, msg⟩]) := by
  refine ⟨notifyEvent_onCheck ctx pull items cfg _ rfl,
    notifyEvent_onComplete ctx pull items cfg _ rfl,
    launchUnits_length, ?_⟩
  intro name ch msg
  have hl : [(name, ch)].lookup name = some ch := by
    simp [List.lookup_cons]
  unfold launchUnits
  simp [List.filterMap_cons, hl]

/-- Claim C8: the caller-visible result of dispatch is fixed once the
goroutines are launched — it is independent of every delivery outcome, equals
the launch-time result, and each launched goroutine's outcome depends only on
its own POST, so one channel's failure affects neither the caller nor any
other channel. -/
theorem c8_fire_and_forget (post post' : PostRequest → Bool) (ctx : RenderCtx)
    (cl : Checklist) (ev : notificationEvent) :
    (dispatchRun post ctx cl ev).1 = (dispatchRun post' ctx cl ev).1
    ∧ (dispatchRun post ctx cl ev).1 = Except.map (fun _ => ()) (notifyEvent ctx cl ev)
    ∧ (dispatchRun post ctx cl ev).2.length = (dispatchRun post' ctx cl ev).2.length
    ∧ (∀ us, notifyEvent ctx cl ev = Except.ok us →
        (dispatchRun post ctx cl ev).1 = Except.ok ()
        ∧ (dispatchRun post ctx cl ev).2 = us.map (runUnit post))
    ∧ (∀ (u : launchedUnit) (req : PostRequest), unitPost u = some req →
        post req = post' req → runUnit post u = runUnit post' u) := by
  refine ⟨?_, ?_, ?_, ?_, ?_⟩
  · cases h : notifyEvent ctx cl ev <;> simp [dispatchRun, h]
  · cases h : notifyEvent ctx cl ev <;> simp [dispatchRun, h, Except.map]
  · cases h : notifyEvent ctx cl ev <;> simp [dispatchRun, h]
  · intro us hus
    simp [dispatchRun, hus]
  · intro u req hreq hqq
    unfold runUnit
    rw [hreq]
    simp [hqq]

/-- Claim C9: marshalling the payload (a struct with a single string field)
never fails, so the serialization-failure branch of the delivery goroutine is
unreachable and every launched delivery proceeds to the outbound POST. -/
theorem c9_payload_marshal_total (p : slackMessagePayload) :
    jsonMarshalPayload p = Except.ok ("\x7b\"text\":" ++ jsonQuote p.Text ++ "\x7d")
    ∧ ∀ u : launchedUnit, (unitPost u).isSome = true :=
  ⟨rfl, fun _ => rfl⟩

/-- Claim C10: in the `CheckAdded` message the item title is interpolated via
Go's `%q`: every double quote, backslash or non-printable character of the
title appears backslash-escaped, and the plain template (title verbatim
between quotes) holds exactly when the title has no such character.  Titles
are restricted to the ASCII range, where the embedding of `%q` is exact. -/
theorem c10_title_quoting (ctx : RenderCtx) (e : addCheckEvent)
    (_hascii : ∀ c ∈ e.item.Title.data, c.toNat < 128) :
    (addCheckEvent.slackMessageText ctx e
        = "[<" ++ ctx.buildURL e.checklist.path ++ "|" ++ e.checklist.display ++ ">] #"
          ++ toString e.item.Number ++ " " ++ goQuote e.item.Title ++ " checked by "
          ++ e.user.Login)
    ∧ (∀ c ∈ e.item.Title.data, (c = '"' ∨ c = '\\' ∨ goIsPrint c = false) →
        (goQuoteCharL c).take 1 = ['\\'])
    ∧ (goQuote e.item.Title = "\"" ++ e.item.Title ++ "\""
        ↔ ∀ c ∈ e.item.Title.data, goIsPrint c = true ∧ c ≠ '"' ∧ c ≠ '\\') := by
  refine ⟨rfl, ?_, ?_⟩
  · intro c _ hd
    rcases goQuoteCharL_spec c with ⟨⟨hp, hq, hb⟩, _⟩ | ⟨_, _, ht⟩
    · rcases hd with rfl | rfl | hd
      · exact absurd rfl hq
      · exact absurd rfl hb
      · rw [hp] at hd
        exact absurd hd (by simp)
    · exact ht
  · exact goQuote_eq_plain_iff e.item.Title

/-- Witness for C10 at an ASCII item title containing double quotes. -/
theorem c10_witness :
    (∀ c ∈ sampleQuotedEvent.item.Title.data, c.toNat < 128)
    ∧ ((addCheckEvent.slackMessageText sampleCtx sampleQuotedEvent
          = "[<" ++ sampleCtx.buildURL sampleQuotedEvent.checklist.path ++ "|"
            ++ sampleQuotedEvent.checklist.display ++ ">] #"
            ++ toString sampleQuotedEvent.item.Number ++ " "
            ++ goQuote sampleQuotedEvent.item.Title ++ " checked by "
            ++ sampleQuotedEvent.user.Login)
      ∧ (∀ c ∈ sampleQuotedEvent.item.Title.data,
            (c = '"' ∨ c = '\\' ∨ goIsPrint c = false) →
            (goQuoteCharL c).take 1 = ['\\'])
      ∧ (goQuote sampleQuotedEvent.item.Title
            = "\"" ++ sampleQuotedEvent.item.Title ++ "\""
          ↔ ∀ c ∈ sampleQuotedEvent.item.Title.data,
              goIsPrint c = true ∧ c ≠ '"' ∧ c ≠ '\\')) :=
  ⟨by decide, c10_title_quoting sampleCtx sampleQuotedEvent (by decide)⟩

end Prchecklist
